import Mathlib

/-!
Verification of the Textureaide arithmetic core.

This file shallowly embeds the pure computational functions of the
Textureaide repository and proves properties of them.

Embedding conventions:
- Python `int` is `Int` (arbitrary precision); Python `%` and `//` on
  a positive divisor are floor operations, which coincide with Lean's
  `Int` `%` (`emod`) and `/` (`ediv`).
- Python `float` is idealized as `ℚ` (the code performs only
  divisions, multiplications and comparisons on values that the claims
  treat exactly).
- A Python `dict` is an insertion-ordered association list with
  distinct keys, so it is embedded as a `List (key × value)`; dict
  iteration (`items()`, `keys()`) follows the list order, as in Python.
- A Python function that can `raise ValueError` is embedded as an
  `Except String` valued function.
- Python's `list.sort(key=k, reverse=rev)` is a stable sort; a stable
  sort's output is uniquely determined by the key order and stability,
  so it is embedded as a stable insertion sort on the same key.
-/

namespace Textureaide

/-! ## Embedding of `textureaide_enhanced/utils/udim_utils.py` -/

/-- Record of per-tile image information, the fields of the per-UDIM
info dict that the arithmetic functions read (`width`, `height`). -/
structure UdimInfo where
  width : Int
  height : Int
deriving DecidableEq, Repr

/-- A `udim_files` dict: insertion-ordered mapping from UDIM tile
number to its info record. -/
abbrev UdimFiles := List (Int × UdimInfo)

/-- Embedding of `parse_udim_number`: decompose a UDIM tile number into
(U, V) coordinates; raises for numbers below 1001. -/
def parse_udim_number (udim : Int) : Except String (Int × Int) :=
  if udim < 1001 then
    .error "Invalid UDIM number. Must be >= 1001"
  else
    let offset := udim - 1001
    .ok (offset % 10, offset / 10)

/-- Embedding of `create_udim_number`: compose a UDIM tile number from
(U, V) coordinates; raises when `u` is outside [0, 9] or `v` is
negative. -/
def create_udim_number (u : Int) (v : Int) : Except String Int :=
  if u < 0 ∨ u > 9 then
    .error "U coordinate must be 0-9"
  else if v < 0 then
    .error "V coordinate must be >= 0"
  else
    .ok (1001 + u + (v * 10))

/-- Embedding of `generate_udim_sequence`: parse the start tile, then
for each `i` in `range(count)` compose the tile at the wrapped (U, V)
position. A negative count yields an empty range, as in Python. -/
def generate_udim_sequence (start_udim : Int) (count : Int) :
    Except String (List Int) := do
  let (u, v) ← parse_udim_number start_udim
  (List.range count.toNat).mapM (fun (i : Nat) =>
    create_udim_number ((u + i) % 10) (v + ((u + i) / 10)))

/-- Embedding of `get_udim_range`: (min, max) of the tile numbers
present, (1001, 1001) when the mapping is empty. Python's `min`/`max`
over the keys is a fold over the first key. -/
def get_udim_range (udim_files : UdimFiles) : Int × Int :=
  match udim_files.map Prod.fst with
  | [] => (1001, 1001)
  | k :: ks => (ks.foldl min k, ks.foldl max k)

/-- Embedding of `get_udim_gaps`: the ascending list of tile numbers in
the inclusive observed range that are not present. The source builds
`sorted(set(range(lo, hi+1)) - set(keys))`, which is exactly the
ascending enumeration of the range filtered to the absent numbers. -/
def get_udim_gaps (udim_files : UdimFiles) : List Int :=
  match udim_files with
  | [] => []
  | _ =>
    let r := get_udim_range udim_files
    let keys := udim_files.map Prod.fst
    ((List.range (r.2 - r.1 + 1).toNat).map (fun (i : Nat) => r.1 + i)).filter
      (fun n => decide (n ∉ keys))

/-- Stable descending insertion by second component: `x` is placed
before the first element whose key is ≤ its own, so equal keys keep
their original relative order (Python's stable `sort` with
`reverse=True`). -/
def insertDescBySnd (x : Int × Int) : List (Int × Int) → List (Int × Int)
  | [] => [x]
  | y :: ys => if y.2 ≤ x.2 then x :: y :: ys else y :: insertDescBySnd x ys

/-- Stable descending sort by second component. -/
def sortDescBySnd : List (Int × Int) → List (Int × Int)
  | [] => []
  | x :: xs => insertDescBySnd x (sortDescBySnd xs)

/-- Stable ascending insertion by second component: `x` is placed
before the first element whose key is ≥ its own (Python's stable
`sort` with `reverse=False`). -/
def insertAscBySnd (x : Int × Int) : List (Int × Int) → List (Int × Int)
  | [] => [x]
  | y :: ys => if x.2 ≤ y.2 then x :: y :: ys else y :: insertAscBySnd x ys

/-- Stable ascending sort by second component. -/
def sortAscBySnd : List (Int × Int) → List (Int × Int)
  | [] => []
  | x :: xs => insertAscBySnd x (sortAscBySnd xs)

/-- Pixel count of a tile entry, as computed by `get_pixel_count` in
`sort_udims_by_resolution` (`width * height`). -/
def pixelCount (e : Int × UdimInfo) : Int :=
  e.2.width * e.2.height

/-- Embedding of `sort_udims_by_resolution`: map each entry to
(tile number, pixel count) in dict order, stably sort by pixel count
(descending or ascending), and return the tile numbers. -/
def sort_udims_by_resolution (udim_files : UdimFiles) (descending : Bool) :
    List Int :=
  let udim_resolutions := udim_files.map (fun e => (e.1, pixelCount e))
  let sorted :=
    if descending then sortDescBySnd udim_resolutions
    else sortAscBySnd udim_resolutions
  sorted.map Prod.fst

/-- Python `min` over the dict keys, used by the FIRST and default
branches of `select_optimal_udim`; `none` on an empty dict. -/
def listMinKey (udim_files : UdimFiles) : Option Int :=
  match udim_files.map Prod.fst with
  | [] => none
  | k :: ks => some (ks.foldl min k)

/-- Embedding of `select_optimal_udim`: None on an empty mapping,
minimum key for FIRST (and for unknown modes), head of the sorted-by-
resolution list for LARGEST and SMALLEST. -/
def select_optimal_udim (udim_files : UdimFiles) (mode : String) :
    Option Int :=
  if udim_files = [] then none
  else if mode = "FIRST" then listMinKey udim_files
  else if mode = "LARGEST" then
    (sort_udims_by_resolution udim_files true).head?
  else if mode = "SMALLEST" then
    (sort_udims_by_resolution udim_files false).head?
  else listMinKey udim_files

/-- Specification of the LARGEST selection mode: the mapping splits
around a returned entry whose pixel count is maximal, every entry
inserted before it having a strictly smaller pixel count (so ties on
the maximal pixel count are broken by insertion order). -/
def SelectLargestSpec (files : UdimFiles) : Prop :=
  ∃ t pre post, files = pre ++ t :: post ∧
    select_optimal_udim files "LARGEST" = some t.1 ∧
    (∀ e ∈ files, pixelCount e ≤ pixelCount t) ∧
    (∀ e ∈ pre, pixelCount e < pixelCount t)

/-- Specification of the SMALLEST selection mode: the mapping splits
around a returned entry whose pixel count is minimal, every entry
inserted before it having a strictly larger pixel count (so ties on
the minimal pixel count are broken by insertion order). -/
def SelectSmallestSpec (files : UdimFiles) : Prop :=
  ∃ t pre post, files = pre ++ t :: post ∧
    select_optimal_udim files "SMALLEST" = some t.1 ∧
    (∀ e ∈ files, pixelCount t ≤ pixelCount e) ∧
    (∀ e ∈ pre, pixelCount t < pixelCount e)

/-! ## Embedding of `utils/scaling_utils.py` -/

/-- Object dimensions vector (`obj.dimensions`), x/y/z extents in
Blender units. -/
structure Vec3 where
  x : ℚ
  y : ℚ
  z : ℚ
deriving DecidableEq, Repr

/-- The part of a Blender object the scaling functions read: its type
string and its bounding-box dimensions. A possibly-absent object is an
`Option BlenderObject` (Python `None`). -/
structure BlenderObject where
  type : String
  dimensions : Vec3
deriving DecidableEq, Repr

/-- Embedding of `pixels_to_blender_units`: pixels to millimeters via
the pixel-per-millimeter density, then millimeters to meters. -/
def pixels_to_blender_units (pixels : Int) (pixel_to_mm : ℚ) : ℚ :=
  let millimeters := (pixels : ℚ) / pixel_to_mm
  let meters := millimeters / 1000
  meters

/-- Embedding of `calculate_real_world_size`: physical (width, height)
in meters of a pixel rectangle. -/
def calculate_real_world_size (width_pixels : Int) (height_pixels : Int)
    (pixel_to_mm : ℚ) : ℚ × ℚ :=
  (pixels_to_blender_units width_pixels pixel_to_mm,
   pixels_to_blender_units height_pixels pixel_to_mm)

/-- Embedding of `calculate_scale_factors`: identity (1, 1) when the
object is absent or either current dimension is zero, otherwise the
componentwise ratio target/current. -/
def calculate_scale_factors (obj : Option BlenderObject)
    (target_width : ℚ) (target_height : ℚ) : ℚ × ℚ :=
  match obj with
  | none => (1, 1)
  | some o =>
    if o.dimensions.x = 0 ∨ o.dimensions.y = 0 then (1, 1)
    else (target_width / o.dimensions.x, target_height / o.dimensions.y)

/-- Result record of `validate_scaling_parameters`. -/
structure ValidationResult where
  valid : Bool
  errors : List String
  warnings : List String
  can_proceed : Bool
deriving DecidableEq, Repr

/-- Embedding of `validate_scaling_parameters`: each failed check
appends its error and returns immediately (with the warnings collected
so far); advisory checks only append warnings; when every check
passes, `valid` is true and `can_proceed` is true because the error
list is empty. -/
def validate_scaling_parameters (obj : Option BlenderObject)
    (tex_width : Int) (tex_height : Int) (pixel_to_mm : ℚ) :
    ValidationResult :=
  match obj with
  | none => ⟨false, ["No object provided"], [], false⟩
  | some o =>
    if o.type ≠ "MESH" then ⟨false, ["Object is not a mesh"], [], false⟩
    else if tex_width ≤ 0 ∨ tex_height ≤ 0 then
      ⟨false, ["Invalid texture dimensions"], [], false⟩
    else
      let w1 := if tex_width > 16384 ∨ tex_height > 16384 then
        ["Very large texture dimensions detected"] else []
      if pixel_to_mm ≤ 0 then
        ⟨false, ["Invalid pixel to millimeter ratio"], w1, false⟩
      else
        let w2 := w1 ++ (if pixel_to_mm > 100 then
          ["Very high pixel density - object will be very small"] else [])
        let w3 := w2 ++ (if pixel_to_mm < 1 / 100 then
          ["Very low pixel density - object will be very large"] else [])
        if o.dimensions.x = 0 ∨ o.dimensions.y = 0 then
          ⟨false, ["Object has zero dimensions"], w3, false⟩
        else
          let target := calculate_real_world_size tex_width tex_height
            pixel_to_mm
          let scale := calculate_scale_factors (some o) target.1 target.2
          let w4 := w3 ++ (if scale.1 > 1000 ∨ scale.2 > 1000 then
            ["Very large scale factors - object will become huge"] else [])
          let w5 := w4 ++ (if scale.1 < 1 / 1000 ∨ scale.2 < 1 / 1000 then
            ["Very small scale factors - object will become tiny"] else [])
          ⟨true, [], w5, true⟩

/-! ## Theorems -/

/-- Helper: `parse_udim_number` on a valid tile number returns the
floor divmod decomposition of the offset from 1001. -/
theorem parse_udim_number_ok (n : Int) (h : 1001 ≤ n) :
    parse_udim_number n = .ok ((n - 1001) % 10, (n - 1001) / 10) := by
  simp only [parse_udim_number]
  rw [if_neg (by omega)]

/-- Helper: `create_udim_number` on in-range coordinates returns the
UDIM formula value. -/
theorem create_udim_number_ok (u v : Int) (hu0 : 0 ≤ u) (hu9 : u ≤ 9)
    (hv : 0 ≤ v) :
    create_udim_number u v = .ok (1001 + u + v * 10) := by
  simp only [create_udim_number]
  rw [if_neg (by omega), if_neg (by omega)]

/-- Helper: mapping a fallible function that succeeds pointwise over a
list succeeds with the pointwise results. -/
theorem mapM_eq_ok_map {α β : Type} (f : α → Except String β) (g : α → β)
    (l : List α) (h : ∀ x ∈ l, f x = .ok (g x)) :
    l.mapM f = .ok (l.map g) := by
  induction l with
  | nil => rfl
  | cons a l ih =>
    rw [List.mapM_cons, h a (by simp), ih (fun x hx => h x (by simp [hx]))]
    rfl

/-- C2: for every tile number n ≥ 1001, `parse_udim_number` returns a
pair (u, v) with 0 ≤ u ≤ 9 and v ≥ 0, and `create_udim_number u v`
succeeds and returns n: composing the decomposition is the identity on
valid tile numbers. -/
theorem parse_create_roundtrip (n : Int) (h : 1001 ≤ n) :
    ∃ u v, parse_udim_number n = .ok (u, v) ∧ 0 ≤ u ∧ u ≤ 9 ∧ 0 ≤ v ∧
      create_udim_number u v = .ok n := by
  refine ⟨(n - 1001) % 10, (n - 1001) / 10, ?_, ?_, ?_, ?_, ?_⟩
  · simp only [parse_udim_number]
    rw [if_neg (by omega)]
  · omega
  · omega
  · omega
  · simp only [create_udim_number]
    rw [if_neg (by omega), if_neg (by omega)]
    congr 1
    omega

/-- Witness for C2 at the concrete tile number 1013. -/
theorem parse_create_roundtrip_witness :
    ∃ u v, parse_udim_number 1013 = .ok (u, v) ∧ 0 ≤ u ∧ u ≤ 9 ∧ 0 ≤ v ∧
      create_udim_number u v = .ok 1013 :=
  parse_create_roundtrip 1013 (by norm_num)

/-- C7: `parse_udim_number` fails exactly on arguments below 1001, and
`create_udim_number` fails exactly when u is outside [0, 9] or v is
negative; on all other inputs both succeed. -/
theorem parse_create_error_conditions (n u v : Int) :
    ((∃ e, parse_udim_number n = .error e) ↔ n < 1001) ∧
    ((∃ p, parse_udim_number n = .ok p) ↔ 1001 ≤ n) ∧
    ((∃ e, create_udim_number u v = .error e) ↔ u < 0 ∨ 9 < u ∨ v < 0) ∧
    ((∃ m, create_udim_number u v = .ok m) ↔ 0 ≤ u ∧ u ≤ 9 ∧ 0 ≤ v) := by
  unfold parse_udim_number create_udim_number
  refine ⟨?_, ?_, ?_, ?_⟩ <;> split_ifs with h1 h2 <;> simp_all <;> omega

/-- C8: on the empty mapping, `select_optimal_udim` returns `none` for
every mode, rather than raising. -/
theorem select_optimal_udim_empty (mode : String) :
    select_optimal_udim [] mode = none := rfl

/-- C9: for every pixel count and positive pixels-per-millimeter
density, `pixels_to_blender_units` returns pixels / density / 1000. -/
theorem pixels_to_blender_units_spec (pixels : Int) (r : ℚ) (h : 0 < r) :
    pixels_to_blender_units pixels r = (pixels : ℚ) / r / 1000 := rfl

/-- Witness for C9 at the spec's example: 1000 pixels at density 1
give 1 meter. -/
theorem pixels_to_blender_units_spec_witness :
    (0 : ℚ) < 1 ∧ pixels_to_blender_units 1000 1 = (1000 : ℚ) / 1 / 1000 ∧
      pixels_to_blender_units 1000 1 = 1 :=
  ⟨by norm_num, pixels_to_blender_units_spec 1000 1 (by norm_num),
   by norm_num [pixels_to_blender_units]⟩

/-- C5: when both current dimensions are non-zero,
`calculate_scale_factors` returns the componentwise ratio
(target width / current width, target height / current height). -/
theorem calculate_scale_factors_spec (o : BlenderObject) (tw th : ℚ)
    (hx : o.dimensions.x ≠ 0) (hy : o.dimensions.y ≠ 0) :
    calculate_scale_factors (some o) tw th =
      (tw / o.dimensions.x, th / o.dimensions.y) := by
  simp [calculate_scale_factors, hx, hy]

/-- Witness for C5 at the spec's example: current dimensions (2, 2),
targets (4, 4), result (2, 2). -/
theorem calculate_scale_factors_spec_witness :
    calculate_scale_factors (some ⟨"MESH", ⟨2, 2, 0⟩⟩) 4 4 = (2, 2) := by
  rw [calculate_scale_factors_spec ⟨"MESH", ⟨2, 2, 0⟩⟩ 4 4
    (by norm_num) (by norm_num)]
  norm_num

/-- C10: `calculate_scale_factors` never divides by zero: with an
absent object, or with a zero current x or y dimension, it returns the
identity pair (1, 1). -/
theorem calculate_scale_factors_safe (tw th : ℚ) :
    calculate_scale_factors none tw th = (1, 1) ∧
    ∀ o : BlenderObject, o.dimensions.x = 0 ∨ o.dimensions.y = 0 →
      calculate_scale_factors (some o) tw th = (1, 1) := by
  refine ⟨rfl, fun o h => ?_⟩
  simp [calculate_scale_factors, h]

/-- Witness for C10 at a concrete degenerate object with zero x
extent. -/
theorem calculate_scale_factors_safe_witness :
    calculate_scale_factors (some ⟨"MESH", ⟨0, 5, 0⟩⟩) 4 4 = (1, 1) :=
  (calculate_scale_factors_safe 4 4).2 ⟨"MESH", ⟨0, 5, 0⟩⟩ (Or.inl rfl)

/-- C4: for every start tile ≥ 1001 and every count ≥ 0,
`generate_udim_sequence` returns the count consecutive tile numbers
from start on: walking (u, v) in raster order, wrapping u from 9 to 0
while incrementing v, is numeric succession on tile numbers. -/
theorem generate_udim_sequence_spec (start_udim count : Int)
    (hs : 1001 ≤ start_udim) (hc : 0 ≤ count) :
    generate_udim_sequence start_udim count =
      .ok ((List.range count.toNat).map (fun (i : Nat) => start_udim + i)) := by
  simp only [generate_udim_sequence, parse_udim_number_ok start_udim hs]
  show Except.bind _ _ = _
  simp only [Except.bind]
  apply mapM_eq_ok_map
  intro i _
  rw [create_udim_number_ok _ _ (by omega) (by omega) (by omega)]
  congr 1
  omega

/-- Witness for C4 at the spec's example: ten tiles from 1001. -/
theorem generate_udim_sequence_spec_witness :
    generate_udim_sequence 1001 10 =
      .ok [1001, 1002, 1003, 1004, 1005, 1006, 1007, 1008, 1009, 1010] := by
  rw [generate_udim_sequence_spec 1001 10 (by norm_num) (by norm_num)]
  rfl

/-- Helper: a min-fold is bounded by its initial accumulator. -/
theorem foldl_min_le_init : ∀ (ks : List Int) (a : Int), ks.foldl min a ≤ a
  | [], _ => le_refl _
  | k :: ks, a =>
    le_trans (foldl_min_le_init ks (min a k)) (min_le_left a k)

/-- Helper: a min-fold is bounded by every list element. -/
theorem foldl_min_le_mem (ks : List Int) (a k : Int) (hk : k ∈ ks) :
    ks.foldl min a ≤ k := by
  induction ks generalizing a with
  | nil => cases hk
  | cons b bs ih =>
    rcases List.mem_cons.mp hk with rfl | hk'
    · exact le_trans (foldl_min_le_init bs (min a k)) (min_le_right a k)
    · rw [List.foldl_cons]
      exact ih (min a b) hk'

/-- Helper: a min-fold returns its accumulator or a list element. -/
theorem foldl_min_mem (ks : List Int) (a : Int) :
    ks.foldl min a = a ∨ ks.foldl min a ∈ ks := by
  induction ks generalizing a with
  | nil => exact Or.inl rfl
  | cons b bs ih =>
    rcases ih (min a b) with h | h
    · rcases min_choice a b with hm | hm
      · exact Or.inl (by rw [List.foldl_cons, h, hm])
      · exact Or.inr (by rw [List.foldl_cons, h, hm]; exact List.mem_cons_self b bs)
    · exact Or.inr (List.mem_cons_of_mem b h)

/-- Helper: a max-fold is bounded below by its initial accumulator. -/
theorem le_foldl_max_init : ∀ (ks : List Int) (a : Int), a ≤ ks.foldl max a
  | [], _ => le_refl _
  | k :: ks, a =>
    le_trans (le_max_left a k) (le_foldl_max_init ks (max a k))

/-- Helper: a max-fold is bounded below by every list element. -/
theorem le_foldl_max_mem (ks : List Int) (a k : Int) (hk : k ∈ ks) :
    k ≤ ks.foldl max a := by
  induction ks generalizing a with
  | nil => cases hk
  | cons b bs ih =>
    rcases List.mem_cons.mp hk with rfl | hk'
    · exact le_trans (le_max_right a k) (le_foldl_max_init bs (max a k))
    · rw [List.foldl_cons]
      exact ih (max a b) hk'

/-- Helper: a max-fold returns its accumulator or a list element. -/
theorem foldl_max_mem (ks : List Int) (a : Int) :
    ks.foldl max a = a ∨ ks.foldl max a ∈ ks := by
  induction ks generalizing a with
  | nil => exact Or.inl rfl
  | cons b bs ih =>
    rcases ih (max a b) with h | h
    · rcases max_choice a b with hm | hm
      · exact Or.inl (by rw [List.foldl_cons, h, hm])
      · exact Or.inr (by rw [List.foldl_cons, h, hm]; exact List.mem_cons_self b bs)
    · exact Or.inr (List.mem_cons_of_mem b h)

/-- C3: on a non-empty tile mapping, `get_udim_range` returns the
observed minimum and maximum tile numbers, and `get_udim_gaps` is an
ascending list containing exactly the tile numbers of the inclusive
observed range that are absent from the mapping. -/
theorem get_udim_gaps_spec (files : UdimFiles) (h : files ≠ []) :
    (get_udim_range files).1 ∈ files.map Prod.fst ∧
    (get_udim_range files).2 ∈ files.map Prod.fst ∧
    (∀ k ∈ files.map Prod.fst,
      (get_udim_range files).1 ≤ k ∧ k ≤ (get_udim_range files).2) ∧
    (∀ n : Int, n ∈ get_udim_gaps files ↔
      (get_udim_range files).1 ≤ n ∧ n ≤ (get_udim_range files).2 ∧
        n ∉ files.map Prod.fst) ∧
    List.Sorted (· < ·) (get_udim_gaps files) := by
  obtain ⟨f, fs, rfl⟩ := List.exists_cons_of_ne_nil h
  have hrange : get_udim_range (f :: fs) =
      ((fs.map Prod.fst).foldl min f.1, (fs.map Prod.fst).foldl max f.1) := by
    simp [get_udim_range]
  set lo := (fs.map Prod.fst).foldl min f.1 with hlo
  set hi := (fs.map Prod.fst).foldl max f.1 with hhi
  have hlomem : lo ∈ (f :: fs).map Prod.fst := by
    rcases foldl_min_mem (fs.map Prod.fst) f.1 with h1 | h1
    · rw [hlo, h1]; simp
    · rw [List.map_cons]; exact List.mem_cons_of_mem _ h1
  have hhimem : hi ∈ (f :: fs).map Prod.fst := by
    rcases foldl_max_mem (fs.map Prod.fst) f.1 with h1 | h1
    · rw [hhi, h1]; simp
    · rw [List.map_cons]; exact List.mem_cons_of_mem _ h1
  have hbound : ∀ k ∈ (f :: fs).map Prod.fst, lo ≤ k ∧ k ≤ hi := by
    intro k hk
    rw [List.map_cons, List.mem_cons] at hk
    rcases hk with rfl | hk'
    · exact ⟨foldl_min_le_init _ _, le_foldl_max_init _ _⟩
    · exact ⟨foldl_min_le_mem _ _ _ hk', le_foldl_max_mem _ _ _ hk'⟩
  have hlohi : lo ≤ hi := le_trans (hbound f.1 (by simp)).1 (hbound f.1 (by simp)).2
  have hgaps : get_udim_gaps (f :: fs) =
      ((List.range (hi - lo + 1).toNat).map (fun (i : Nat) => lo + i)).filter
        (fun n => decide (n ∉ (f :: fs).map Prod.fst)) := by
    simp only [get_udim_gaps, hrange]
  refine ⟨hrange ▸ hlomem, hrange ▸ hhimem, hrange ▸ hbound, ?_, ?_⟩
  · intro n
    rw [hrange, hgaps]
    simp only [List.mem_filter, List.mem_map, List.mem_range,
      decide_eq_true_eq]
    constructor
    · rintro ⟨⟨i, hi1, rfl⟩, h2⟩
      exact ⟨by omega, by omega, h2⟩
    · rintro ⟨h1, h2, h3⟩
      refine ⟨⟨(n - lo).toNat, by omega, by omega⟩, h3⟩
  · rw [hgaps]
    apply List.Pairwise.filter
    exact List.Pairwise.map _ (fun a b hab => by omega)
      (List.pairwise_lt_range _)

/-- Witness for C3 at the spec's examples: the mapping {1001, 1003}
has the single gap 1002 and the singleton mapping {1001} has none. -/
theorem get_udim_gaps_spec_witness :
    (∀ n : Int,
      n ∈ get_udim_gaps [(1001, ⟨1, 1⟩), (1003, ⟨1, 1⟩)] ↔
      (get_udim_range [(1001, ⟨1, 1⟩), (1003, ⟨1, 1⟩)]).1 ≤ n ∧
        n ≤ (get_udim_range [(1001, ⟨1, 1⟩), (1003, ⟨1, 1⟩)]).2 ∧
        n ∉ ([(1001, ⟨1, 1⟩), (1003, ⟨1, 1⟩)] : UdimFiles).map Prod.fst) ∧
    get_udim_gaps [(1001, ⟨1, 1⟩), (1003, ⟨1, 1⟩)] = [1002] ∧
    get_udim_gaps [(1001, ⟨1, 1⟩)] = [] :=
  ⟨(get_udim_gaps_spec [(1001, ⟨1, 1⟩), (1003, ⟨1, 1⟩)] (by simp)).2.2.2.1,
   by decide, by decide⟩

/-- Helper: the head of the stable descending sort is the first
element of the input attaining the maximal key. -/
theorem sortDescBySnd_head (l : List (Int × Int)) (h : l ≠ []) :
    ∃ m pre post, (sortDescBySnd l).head? = some m ∧ l = pre ++ m :: post ∧
      (∀ y ∈ pre, y.2 < m.2) ∧ (∀ y ∈ l, y.2 ≤ m.2) := by
  induction l with
  | nil => exact absurd rfl h
  | cons x xs ih =>
    cases xs with
    | nil => exact ⟨x, [], [], rfl, rfl, by simp, by simp⟩
    | cons b bs =>
      obtain ⟨m, pre, post, hm, hsplit, hpre, hall⟩ := ih (by simp)
      obtain ⟨t, ht⟩ : ∃ t, sortDescBySnd (b :: bs) = m :: t := by
        cases hs : sortDescBySnd (b :: bs) with
        | nil => rw [hs] at hm; exact absurd hm (by simp)
        | cons c cs =>
          rw [hs] at hm
          simp only [List.head?_cons, Option.some_inj] at hm
          exact ⟨cs, by rw [hm]⟩
      by_cases hcmp : m.2 ≤ x.2
      · refine ⟨x, [], b :: bs, ?_, rfl, by simp, ?_⟩
        · show (insertDescBySnd x (sortDescBySnd (b :: bs))).head? = some x
          rw [ht]
          simp [insertDescBySnd, hcmp]
        · intro y hy
          rcases List.mem_cons.mp hy with rfl | hy'
          · exact le_refl _
          · exact le_trans (hall y hy') hcmp
      · push_neg at hcmp
        refine ⟨m, x :: pre, post, ?_, by rw [List.cons_append, ← hsplit],
          ?_, ?_⟩
        · show (insertDescBySnd x (sortDescBySnd (b :: bs))).head? = some m
          rw [ht]
          simp [insertDescBySnd, not_le.mpr hcmp]
        · intro y hy
          rcases List.mem_cons.mp hy with rfl | hy'
          · exact hcmp
          · exact hpre y hy'
        · intro y hy
          rcases List.mem_cons.mp hy with rfl | hy'
          · exact le_of_lt hcmp
          · exact hall y hy'

/-- Helper: the head of the stable ascending sort is the first
element of the input attaining the minimal key. -/
theorem sortAscBySnd_head (l : List (Int × Int)) (h : l ≠ []) :
    ∃ m pre post, (sortAscBySnd l).head? = some m ∧ l = pre ++ m :: post ∧
      (∀ y ∈ pre, m.2 < y.2) ∧ (∀ y ∈ l, m.2 ≤ y.2) := by
  induction l with
  | nil => exact absurd rfl h
  | cons x xs ih =>
    cases xs with
    | nil => exact ⟨x, [], [], rfl, rfl, by simp, by simp⟩
    | cons b bs =>
      obtain ⟨m, pre, post, hm, hsplit, hpre, hall⟩ := ih (by simp)
      obtain ⟨t, ht⟩ : ∃ t, sortAscBySnd (b :: bs) = m :: t := by
        cases hs : sortAscBySnd (b :: bs) with
        | nil => rw [hs] at hm; exact absurd hm (by simp)
        | cons c cs =>
          rw [hs] at hm
          simp only [List.head?_cons, Option.some_inj] at hm
          exact ⟨cs, by rw [hm]⟩
      by_cases hcmp : x.2 ≤ m.2
      · refine ⟨x, [], b :: bs, ?_, rfl, by simp, ?_⟩
        · show (insertAscBySnd x (sortAscBySnd (b :: bs))).head? = some x
          rw [ht]
          simp [insertAscBySnd, hcmp]
        · intro y hy
          rcases List.mem_cons.mp hy with rfl | hy'
          · exact le_refl _
          · exact le_trans hcmp (hall y hy')
      · push_neg at hcmp
        refine ⟨m, x :: pre, post, ?_, by rw [List.cons_append, ← hsplit],
          ?_, ?_⟩
        · show (insertAscBySnd x (sortAscBySnd (b :: bs))).head? = some m
          rw [ht]
          simp [insertAscBySnd, not_le.mpr hcmp]
        · intro y hy
          rcases List.mem_cons.mp hy with rfl | hy'
          · exact hcmp
          · exact hpre y hy'
        · intro y hy
          rcases List.mem_cons.mp hy with rfl | hy'
          · exact le_of_lt hcmp
          · exact hall y hy'

/-- Helper: on a non-empty mapping the LARGEST branch returns the head
of the descending sort of the (tile, pixel count) pairs. -/
theorem select_largest_eq (files : UdimFiles) (h : files ≠ []) :
    select_optimal_udim files "LARGEST" =
      ((sortDescBySnd (files.map (fun e => (e.1, pixelCount e)))).map
        Prod.fst).head? := by
  simp only [select_optimal_udim, sort_udims_by_resolution]
  rw [if_neg h, if_neg (by decide), if_pos (by decide)]
  simp

/-- Helper: on a non-empty mapping the SMALLEST branch returns the
head of the ascending sort of the (tile, pixel count) pairs. -/
theorem select_smallest_eq (files : UdimFiles) (h : files ≠ []) :
    select_optimal_udim files "SMALLEST" =
      ((sortAscBySnd (files.map (fun e => (e.1, pixelCount e)))).map
        Prod.fst).head? := by
  simp only [select_optimal_udim, sort_udims_by_resolution]
  rw [if_neg h, if_neg (by decide), if_neg (by decide), if_pos (by decide)]
  simp

/-- C1 (amended): on every non-empty mapping, mode LARGEST returns a
tile number of maximal pixel count and mode SMALLEST one of minimal
pixel count; when several tiles tie on the extreme pixel count the
returned tile is the one earliest in the mapping's insertion order —
not necessarily the one with the smallest tile number. -/
theorem select_optimal_udim_extremal (files : UdimFiles) (h : files ≠ []) :
    SelectLargestSpec files ∧ SelectSmallestSpec files := by
  have hmapne : files.map (fun e => (e.1, pixelCount e)) ≠ [] := by
    simpa using h
  constructor
  · obtain ⟨m, pre', post', hm, hsplit, hpre, hall⟩ :=
      sortDescBySnd_head _ hmapne
    obtain ⟨l₁, l₂, rfl, hl₁, hl₂⟩ := List.map_eq_append_iff.mp hsplit
    obtain ⟨t, l₂', rfl, hFt, hl₂'⟩ := List.map_eq_cons_iff.mp hl₂
    refine ⟨t, l₁, l₂', rfl, ?_, ?_, ?_⟩
    · rw [select_largest_eq _ h, List.head?_map, hm, ← hFt]
      rfl
    · intro e he
      have hmem := List.mem_map_of_mem (fun e => (e.1, pixelCount e)) he
      have := hall _ hmem
      rw [← hFt] at this
      exact this
    · intro e he
      have hmem : (fun e => (e.1, pixelCount e)) e ∈ pre' :=
        hl₁ ▸ List.mem_map_of_mem (fun e => (e.1, pixelCount e)) he
      have := hpre _ hmem
      rw [← hFt] at this
      exact this
  · obtain ⟨m, pre', post', hm, hsplit, hpre, hall⟩ :=
      sortAscBySnd_head _ hmapne
    obtain ⟨l₁, l₂, rfl, hl₁, hl₂⟩ := List.map_eq_append_iff.mp hsplit
    obtain ⟨t, l₂', rfl, hFt, hl₂'⟩ := List.map_eq_cons_iff.mp hl₂
    refine ⟨t, l₁, l₂', rfl, ?_, ?_, ?_⟩
    · rw [select_smallest_eq _ h, List.head?_map, hm, ← hFt]
      rfl
    · intro e he
      have hmem := List.mem_map_of_mem (fun e => (e.1, pixelCount e)) he
      have := hall _ hmem
      rw [← hFt] at this
      exact this
    · intro e he
      have hmem : (fun e => (e.1, pixelCount e)) e ∈ pre' :=
        hl₁ ▸ List.mem_map_of_mem (fun e => (e.1, pixelCount e)) he
      have := hpre _ hmem
      rw [← hFt] at this
      exact this

/-- Witness for C1 at the spec's example mapping
{1001: (50, 50), 1002: (200, 200)}, where LARGEST returns 1002. -/
theorem select_optimal_udim_extremal_witness :
    (SelectLargestSpec [(1001, ⟨50, 50⟩), (1002, ⟨200, 200⟩)] ∧
      SelectSmallestSpec [(1001, ⟨50, 50⟩), (1002, ⟨200, 200⟩)]) ∧
    select_optimal_udim [(1001, ⟨50, 50⟩), (1002, ⟨200, 200⟩)] "LARGEST" =
      some 1002 :=
  ⟨select_optimal_udim_extremal [(1001, ⟨50, 50⟩), (1002, ⟨200, 200⟩)]
    (by simp), by decide⟩

/-- Counterexample for C1 as stated: on the mapping inserted in the
order {1002: (50, 50), 1001: (50, 50)} both tiles tie at 2500 pixels,
yet LARGEST returns 1002, not the smaller tied tile number 1001. -/
theorem select_optimal_udim_tie_cex :
    pixelCount ((1002, ⟨50, 50⟩) : Int × UdimInfo) =
      pixelCount ((1001, ⟨50, 50⟩) : Int × UdimInfo) ∧
    select_optimal_udim [(1002, ⟨50, 50⟩), (1001, ⟨50, 50⟩)] "LARGEST" =
      some 1002 ∧
    select_optimal_udim [(1002, ⟨50, 50⟩), (1001, ⟨50, 50⟩)] "LARGEST" ≠
      some 1001 := by
  refine ⟨rfl, ?_, ?_⟩ <;> decide

/-- C6: for a mesh object with non-zero dimensions,
`validate_scaling_parameters` blocks (can_proceed false) exactly on
invalid input — non-positive texture width or height, or non-positive
pixel-to-millimeter density — and on valid input it returns no errors
and can_proceed true, with extreme densities, oversized textures and
out-of-range scale factors contributing only their warning strings. -/
theorem validate_scaling_parameters_spec (o : BlenderObject)
    (tw th : Int) (r : ℚ)
    (hm : o.type = "MESH") (hx : o.dimensions.x ≠ 0)
    (hy : o.dimensions.y ≠ 0) :
    ((validate_scaling_parameters (some o) tw th r).can_proceed = false ↔
      tw ≤ 0 ∨ th ≤ 0 ∨ r ≤ 0) ∧
    (0 < tw → 0 < th → 0 < r →
      validate_scaling_parameters (some o) tw th r =
        ⟨true, [],
          (if tw > 16384 ∨ th > 16384 then
            ["Very large texture dimensions detected"] else []) ++
          ((if r > 100 then
            ["Very high pixel density - object will be very small"]
            else []) ++
          ((if r < 1 / 100 then
            ["Very low pixel density - object will be very large"]
            else []) ++
          ((if (calculate_scale_factors (some o)
                (calculate_real_world_size tw th r).1
                (calculate_real_world_size tw th r).2).1 > 1000 ∨
              (calculate_scale_factors (some o)
                (calculate_real_world_size tw th r).1
                (calculate_real_world_size tw th r).2).2 > 1000 then
            ["Very large scale factors - object will become huge"]
            else []) ++
          (if (calculate_scale_factors (some o)
                (calculate_real_world_size tw th r).1
                (calculate_real_world_size tw th r).2).1 < 1 / 1000 ∨
              (calculate_scale_factors (some o)
                (calculate_real_world_size tw th r).1
                (calculate_real_world_size tw th r).2).2 < 1 / 1000 then
            ["Very small scale factors - object will become tiny"]
            else [])))),
          true⟩) := by
  have hmesh : ¬(o.type ≠ "MESH") := by simp [hm]
  have hdims : ¬(o.dimensions.x = 0 ∨ o.dimensions.y = 0) := by
    simp [hx, hy]
  constructor
  · by_cases h1 : tw ≤ 0 ∨ th ≤ 0
    · simp only [validate_scaling_parameters, if_neg hmesh, if_pos h1]
      constructor
      · intro _
        tauto
      · intro _
        trivial
    · by_cases h2 : r ≤ 0
      · simp only [validate_scaling_parameters, if_neg hmesh, if_neg h1,
          if_pos h2]
        constructor
        · intro _
          tauto
        · intro _
          trivial
      · simp only [validate_scaling_parameters, if_neg hmesh, if_neg h1,
          if_neg h2, if_neg hdims]
        constructor
        · intro hfalse
          exact absurd hfalse (by simp)
        · intro habs
          rcases habs with h | h | h
          · exact absurd (Or.inl h) h1
          · exact absurd (Or.inr h) h1
          · exact absurd h h2
  · intro htw hth hr
    simp only [validate_scaling_parameters, if_neg hmesh,
      if_neg (show ¬(tw ≤ 0 ∨ th ≤ 0) by omega),
      if_neg (not_le.mpr hr), if_neg hdims]
    simp [List.append_assoc]

/-- Witness for C6 at a concrete mesh object with dimensions (2, 2)
and benign parameters: no errors and can_proceed true. -/
theorem validate_scaling_parameters_spec_witness :
    (validate_scaling_parameters (some ⟨"MESH", ⟨2, 2, 0⟩⟩)
      1000 1000 1).can_proceed = true ∧
    (validate_scaling_parameters (some ⟨"MESH", ⟨2, 2, 0⟩⟩)
      1000 1000 1).errors = [] := by
  have h := validate_scaling_parameters_spec ⟨"MESH", ⟨2, 2, 0⟩⟩
    1000 1000 1 rfl (by norm_num) (by norm_num)
  rw [h.2 (by norm_num) (by norm_num) (by norm_num)]
  constructor <;> rfl

end Textureaide
